import Mathlib

/-!
# Verification of the astronomy calculation service

Shallow embedding of `app/services/astronomy.py`: the Moon-phase
calculator (primary ephemeris path and analytic fallback path), the
moonrise/moonset hourly scan, the lazy skyfield initializer, and the
Latvia visibility report.

Modelling conventions:
* A Python `datetime` is modelled by the rational number of elapsed
  seconds relative to the fallback reference epoch 2000-01-06T18:14 UTC
  (the only datetime arithmetic the service performs is subtraction from
  that epoch followed by `total_seconds()`).
* The external skyfield backend (body positions, separations, altitudes)
  is modelled by an environment `Env` holding the availability flag
  returned by `_initialize_skyfield`, the Sun–Moon separation in degrees
  at a given instant, and the Moon altitude above a given location at a
  given day and hour.
* Python floats are modelled by real numbers; `round(x, 1)` is modelled
  by `round1` below.
* Instants `ts.utc(y, m, d, hour, 0)` inside the rise/set scan of a
  fixed day are identified by their hour index `0..23`.
-/

open Real

namespace Astronomy

/-- The eight phase labels used by both binnings in the source. -/
def phaseNames : List String :=
  ["New Moon", "Waxing Crescent", "First Quarter", "Waxing Gibbous",
   "Full Moon", "Waning Gibbous", "Last Quarter", "Waning Crescent"]

/-- The dict `{"phase_name": ..., "illumination": ..., "phase_angle": ...}`
returned by both branches of `get_moon_phase`. -/
structure PhaseResult where
  phase_name : String
  illumination : ℝ
  phase_angle : ℝ

/-- Python's `round(x, 1)` (to one decimal place) on real values. -/
noncomputable def round1 (x : ℝ) : ℝ := ((round (x * 10) : ℤ) : ℝ) / 10

/-- `round(x, 1)` on rationals, used to evaluate the fallback phase angle. -/
def round1q (x : ℚ) : ℚ := ((round (x * 10) : ℤ) : ℚ) / 10

/-! ## Fallback path: `_fallback_moon_phase` (astronomy.py lines 49–85) -/

/-- `cycle_days = 29.53058867`, the synodic month length used by the fallback. -/
def cycle_days : ℚ := 29.53058867

/-- The synthetic elongation of the fallback model:
`elapsed_days = elapsed_seconds / 86400`,
`phase_position = (elapsed_days % cycle_days) / cycle_days`,
`elongation = phase_position * 360`.  Python's float `%` is
`a - b * ⌊a / b⌋` for positive `b`. -/
def fallbackElongation (elapsed_seconds : ℚ) : ℚ :=
  let elapsed_days := elapsed_seconds / 86400
  let phase_position :=
    (elapsed_days - cycle_days * (⌊elapsed_days / cycle_days⌋ : ℚ)) / cycle_days
  phase_position * 360

/-- The fallback illumination formula
`(1 - math.cos(math.radians(elongation))) / 2 * 100` (before rounding). -/
noncomputable def fallback_illumination (e : ℝ) : ℝ :=
  (1 - Real.cos (e * π / 180)) / 2 * 100

/-- The fallback phase-name if/elif chain (bins centred on multiples of 45°,
half-width 22.5°). -/
def phaseNameFallback (e : ℚ) : String :=
  if e < 22.5 ∨ 337.5 ≤ e then "New Moon"
  else if e < 67.5 then "Waxing Crescent"
  else if e < 112.5 then "First Quarter"
  else if e < 157.5 then "Waxing Gibbous"
  else if e < 202.5 then "Full Moon"
  else if e < 247.5 then "Waning Gibbous"
  else if e < 292.5 then "Last Quarter"
  else "Waning Crescent"

/-- `_fallback_moon_phase(date)`: the whole fallback branch, as a function of
the elapsed seconds since the reference new moon 2000-01-06T18:14. -/
noncomputable def fallback_moon_phase (elapsed_seconds : ℚ) : PhaseResult :=
  let elongation := fallbackElongation elapsed_seconds
  { phase_name := phaseNameFallback elongation
    illumination := round1 (fallback_illumination (elongation : ℝ))
    phase_angle := round1 ((elongation : ℚ) : ℝ) }

/-! ## Primary path: `get_moon_phase` lines 99–129 -/

/-- The primary illumination formula
`(1 + math.cos(math.radians(elongation))) / 2 * 100` (before rounding). -/
noncomputable def illumination_primary (e : ℝ) : ℝ :=
  (1 + Real.cos (e * π / 180)) / 2 * 100

/-- The primary phase-name if/elif chain (left-closed 45° bins from 0°). -/
noncomputable def phaseNamePrimary (e : ℝ) : String :=
  if e < 45 then "New Moon"
  else if e < 90 then "Waxing Crescent"
  else if e < 135 then "First Quarter"
  else if e < 180 then "Waxing Gibbous"
  else if e < 225 then "Full Moon"
  else if e < 270 then "Waning Gibbous"
  else if e < 315 then "Last Quarter"
  else "Waning Crescent"

/-- The primary branch of `get_moon_phase`, as a function of the elongation
`s.separation_from(m).degrees` the backend reports for the instant. -/
noncomputable def get_moon_phase_primary (e : ℝ) : PhaseResult :=
  { phase_name := phaseNamePrimary e
    illumination := round1 (illumination_primary e)
    phase_angle := round1 e }

/-! ## The backend environment and the public operations -/

/-- The state of the external skyfield backend as the service observes it:
`available` is the boolean `_initialize_skyfield()` returns; `elongAt t` is
the Sun–Moon apparent separation in degrees at instant `t` (elapsed seconds
since the reference epoch); `altAt lat lon day hour` is the Moon's apparent
altitude in degrees above the horizon of `(lat, lon)` at `ts.utc(day, hour, 0)`. -/
structure Env where
  available : Bool
  elongAt : ℚ → ℝ
  altAt : ℝ → ℝ → ℚ → ℕ → ℝ

/-- `get_moon_phase(date)` (astronomy.py lines 88–129). -/
noncomputable def get_moon_phase (env : Env) (date : ℚ) : PhaseResult :=
  if env.available then get_moon_phase_primary (env.elongAt date)
  else fallback_moon_phase date

/-! ## Rise/set scan: `get_moon_rise_set` lines 150–193 -/

/-- One iteration of the crossing scan: looking at samples `i` and `i + 1`,
record a moonrise at hour `i + 1` when the altitude crosses from `< 0` to
`≥ 0`, and a moonset at hour `i + 1` when it crosses from `≥ 0` to `< 0`
(each assignment overwrites the previous one of the same kind). -/
noncomputable def scanStep (alt : ℕ → ℝ) (st : Option ℕ × Option ℕ) (i : ℕ) :
    Option ℕ × Option ℕ :=
  let st1 := if alt i < 0 ∧ 0 ≤ alt (i + 1) then (some (i + 1), st.2) else st
  if 0 ≤ alt i ∧ alt (i + 1) < 0 then (st1.1, some (i + 1)) else st1

/-- The `for i in range(len(times) - 1)` scan over the 24 hourly samples,
starting from `moonrise = None`, `moonset = None`. -/
noncomputable def riseSetScan (alt : ℕ → ℝ) : Option ℕ × Option ℕ :=
  (List.range 23).foldl (scanStep alt) (none, none)

/-- `get_moon_rise_set(latitude, longitude, date)`: both crossings absent when
the ephemeris is unavailable, otherwise the hourly scan.  Resulting instants
are identified by their hour index in the day. -/
noncomputable def get_moon_rise_set (env : Env) (latitude longitude : ℝ)
    (date : ℚ) : Option ℕ × Option ℕ :=
  if env.available then riseSetScan (env.altAt latitude longitude date)
  else (none, none)

/-! ## `get_next_full_moon` lines 132–147 -/

/-- `get_next_full_moon()`: scan day offsets 0..29 from `now`, return the
first `check_date` whose phase info satisfies `illumination > 99` and
`phase_name == "Full Moon"`, else `None`.  `timedelta(days=k)` adds
`86400 * k` seconds. -/
noncomputable def get_next_full_moon (env : Env) (now : ℚ) : Option ℚ :=
  (List.range 30).findSome? fun day_offset =>
    let check_date := now + 86400 * day_offset
    let phase_info := get_moon_phase env check_date
    if phase_info.illumination > 99 ∧ phase_info.phase_name = "Full Moon"
    then some check_date else none

/-! ## `calculate_visibility_for_latvia` lines 196–212 -/

/-- The dict returned by `calculate_visibility_for_latvia`. -/
structure VisibilityReport where
  location : String
  phase : PhaseResult
  rise_set : Option ℕ × Option ℕ

/-- `calculate_visibility_for_latvia()`: fixed Riga coordinates, composes the
phase and rise/set operations. -/
noncomputable def calculate_visibility_for_latvia (env : Env) (now today : ℚ) :
    VisibilityReport :=
  let latitude : ℝ := 56.9496
  let longitude : ℝ := 24.1052
  { location := "Riga, Latvia"
    phase := get_moon_phase env now
    rise_set := get_moon_rise_set env latitude longitude today }

/-! ## The lazy initializer: `_initialize_skyfield` lines 21–46

The module globals `ts`, `earth`, `moon`, `sun` are modelled as a record of
options over opaque handle values (the algorithm never inspects them, so
they are represented by natural-number tokens).  Each call performs, under
the `try`, two fallible I/O operations — `load('de421.bsp')` and
`load.timescale()` — either of which may raise the `OSError` the handler
catches; the body assignments `earth`, `moon`, `sun` happen between them.
`LoadOutcome` enumerates the possible outcomes of one attempt. -/

/-- The module-level globals `ts`, `earth`, `moon`, `sun` (each `None` until
assigned). -/
structure SkyState where
  ts : Option ℕ
  earth : Option ℕ
  moon : Option ℕ
  sun : Option ℕ
  deriving DecidableEq

/-- Outcome of the fallible operations inside one `try` block:
`loadFail` — `load('de421.bsp')` raises `OSError` (nothing assigned);
`timescaleFail e m s` — the ephemeris loads and the three bodies are
assigned, then `load.timescale()` raises `OSError`;
`success e m s t` — every operation succeeds. -/
inductive LoadOutcome where
  | loadFail : LoadOutcome
  | timescaleFail : ℕ → ℕ → ℕ → LoadOutcome
  | success : ℕ → ℕ → ℕ → ℕ → LoadOutcome
  deriving DecidableEq

/-- `_initialize_skyfield()`: returns the updated globals and the boolean
result.  If all four globals are set, return `True` immediately; otherwise
attempt the load, assigning the globals as the corresponding statements
execute, and return `True` on full success, `False` when `OSError` is
caught. -/
def initialize_skyfield (st : SkyState) (o : LoadOutcome) : SkyState × Bool :=
  if st.ts.isSome ∧ st.earth.isSome ∧ st.moon.isSome ∧ st.sun.isSome then
    (st, true)
  else
    match o with
    | .loadFail => (st, false)
    | .timescaleFail e m s =>
        ({ st with earth := some e, moon := some m, sun := some s }, false)
    | .success e m s t =>
        ({ ts := some t, earth := some e, moon := some m, sun := some s }, true)

/-- All four globals assigned. -/
def SkyState.allSet (st : SkyState) : Prop :=
  st.ts.isSome ∧ st.earth.isSome ∧ st.moon.isSome ∧ st.sun.isSome

/-- No global assigned. -/
def SkyState.noneSet (st : SkyState) : Prop :=
  st.ts = none ∧ st.earth = none ∧ st.moon = none ∧ st.sun = none

instance (st : SkyState) : Decidable st.allSet := by
  unfold SkyState.allSet; infer_instance

instance (st : SkyState) : Decidable st.noneSet := by
  unfold SkyState.noneSet; infer_instance

/-- Well-formedness of a `PhaseResult` as produced by the service: a label
from the eight-name list, illumination within `[0, 100]`, phase angle within
`[0, 360]`. -/
def wellFormedPhase (r : PhaseResult) : Prop :=
  r.phase_name ∈ phaseNames ∧
  0 ≤ r.illumination ∧ r.illumination ≤ 100 ∧
  0 ≤ r.phase_angle ∧ r.phase_angle ≤ 360

/-! ## Helper lemmas -/

lemma round1_nonneg (x : ℝ) (h : 0 ≤ x) : 0 ≤ round1 x := by
  unfold round1
  have h1 : (0 : ℤ) ≤ round (x * 10) := by
    rw [round_eq]
    exact Int.le_floor.mpr (by push_cast; linarith)
  have h2 : (0 : ℝ) ≤ ((round (x * 10) : ℤ) : ℝ) := by exact_mod_cast h1
  linarith

lemma round1_le_of_le (x : ℝ) (n : ℤ) (h : x ≤ n) : round1 x ≤ n := by
  unfold round1
  have h1 : round (x * 10) ≤ 10 * n := by
    rw [round_eq]
    have h2 : ⌊x * 10 + 1 / 2⌋ ≤ ⌊((10 * n : ℤ) : ℝ) + 1 / 2⌋ :=
      Int.floor_le_floor (by push_cast; linarith)
    have h3 : ⌊((10 * n : ℤ) : ℝ) + 1 / 2⌋ = 10 * n :=
      Int.floor_eq_iff.mpr ⟨by push_cast; linarith, by push_cast; linarith⟩
    omega
  have h4 : ((round (x * 10) : ℤ) : ℝ) ≤ ((10 * n : ℤ) : ℝ) := by exact_mod_cast h1
  push_cast at h4 ⊢
  linarith

lemma round1_intCast (n : ℤ) : round1 ((n : ℤ) : ℝ) = n := by
  unfold round1
  have h1 : ((n : ℤ) : ℝ) * 10 = ((10 * n : ℤ) : ℝ) := by push_cast; ring
  rw [h1, round_intCast]
  push_cast
  ring

lemma phaseNamePrimary_mem (e : ℝ) : phaseNamePrimary e ∈ phaseNames := by
  unfold phaseNamePrimary
  split_ifs <;> simp [phaseNames]

lemma phaseNameFallback_mem (e : ℚ) : phaseNameFallback e ∈ phaseNames := by
  unfold phaseNameFallback
  split_ifs <;> simp [phaseNames]

lemma illumination_primary_bounds (e : ℝ) :
    0 ≤ illumination_primary e ∧ illumination_primary e ≤ 100 := by
  unfold illumination_primary
  constructor <;>
    nlinarith [Real.neg_one_le_cos (e * π / 180), Real.cos_le_one (e * π / 180)]

lemma fallback_illumination_bounds (e : ℝ) :
    0 ≤ fallback_illumination e ∧ fallback_illumination e ≤ 100 := by
  unfold fallback_illumination
  constructor <;>
    nlinarith [Real.neg_one_le_cos (e * π / 180), Real.cos_le_one (e * π / 180)]

lemma cycle_days_pos : (0 : ℚ) < cycle_days := by norm_num [cycle_days]

lemma fallbackElongation_bounds (q : ℚ) :
    0 ≤ fallbackElongation q ∧ fallbackElongation q < 360 := by
  simp only [fallbackElongation]
  have hc := cycle_days_pos
  set d := q / 86400 with hd
  set r := d / cycle_days with hr
  have e1 : (d - cycle_days * (⌊r⌋ : ℚ)) / cycle_days = r - ⌊r⌋ := by
    field_simp [hr]
  rw [e1]
  have hfl : (⌊r⌋ : ℚ) ≤ r := Int.floor_le r
  have hfu : r < ⌊r⌋ + 1 := Int.lt_floor_add_one r
  constructor <;> nlinarith

lemma primary_wellFormed (e : ℝ) (h1 : 0 ≤ e) (h2 : e < 360) :
    wellFormedPhase (get_moon_phase_primary e) := by
  refine ⟨phaseNamePrimary_mem e, ?_, ?_, ?_, ?_⟩
  · exact round1_nonneg _ (illumination_primary_bounds e).1
  · have := round1_le_of_le (illumination_primary e) 100 (by
      exact_mod_cast (illumination_primary_bounds e).2)
    exact_mod_cast this
  · exact round1_nonneg _ h1
  · have := round1_le_of_le e 360 (by exact_mod_cast le_of_lt h2)
    exact_mod_cast this

lemma fallback_wellFormed (q : ℚ) : wellFormedPhase (fallback_moon_phase q) := by
  have hb := fallbackElongation_bounds q
  refine ⟨phaseNameFallback_mem _, ?_, ?_, ?_, ?_⟩
  · exact round1_nonneg _ (fallback_illumination_bounds _).1
  · have := round1_le_of_le (fallback_illumination ((fallbackElongation q : ℚ) : ℝ)) 100 (by
      exact_mod_cast (fallback_illumination_bounds _).2)
    exact_mod_cast this
  · exact round1_nonneg _ (by exact_mod_cast hb.1)
  · have := round1_le_of_le ((fallbackElongation q : ℚ) : ℝ) 360 (by
      have : (fallbackElongation q : ℝ) < 360 := by exact_mod_cast hb.2
      push_cast
      linarith)
    exact_mod_cast this

/-! ## C1: `get_moon_phase` is total under both backend states -/

/-- C1: for every timestamp and under both backend states, `get_moon_phase`
returns a well-formed `PhaseResult` (a phase label from the fixed list);
when the ephemeris is unavailable the result comes from the fallback path
rather than surfacing an error — in the embedding `get_moon_phase` is a
total function into `PhaseResult`, with no error outcome in its type. -/
theorem C1_get_moon_phase_never_fails (env : Env) (date : ℚ)
    (eA : ℚ → ℝ) (aA : ℝ → ℝ → ℚ → ℕ → ℝ) :
    (get_moon_phase env date).phase_name ∈ phaseNames ∧
    get_moon_phase ⟨false, eA, aA⟩ date = fallback_moon_phase date := by
  constructor
  · unfold get_moon_phase
    split
    · exact phaseNamePrimary_mem _
    · exact phaseNameFallback_mem _
  · simp [get_moon_phase]

/-! ## C9: the visibility report is a pure composition -/

/-- C9: for every backend state, `calculate_visibility_for_latvia` returns
exactly the record with location label `"Riga, Latvia"`, the value of
`get_moon_phase` at the current instant, and the value of
`get_moon_rise_set` at latitude 56.9496, longitude 24.1052, with no failure
modes of its own (it is a total function). -/
theorem C9_visibility_report_composition (env : Env) (now today : ℚ) :
    (calculate_visibility_for_latvia env now today).location = "Riga, Latvia" ∧
    (calculate_visibility_for_latvia env now today).phase = get_moon_phase env now ∧
    (calculate_visibility_for_latvia env now today).rise_set =
      get_moon_rise_set env 56.9496 24.1052 today :=
  ⟨rfl, rfl, rfl⟩

/-! ## C2: well-formedness of every returned `PhaseResult`

The claim's phase-angle range `[0, 360)` is refuted: both paths round the
phase angle to one decimal, and an elongation of 359.96° (reachable on the
fallback path at a concrete elapsed time) rounds up to exactly 360.0.  The
bound that does hold after rounding is `[0, 360]`. -/

/-- C2 counterexample: with the ephemeris unavailable, at the concrete
elapsed time `86400 * cycle_days * (35996 / 36000)` seconds past the epoch
(synthetic elongation 359.96°), `get_moon_phase` returns
`phase_angle = 360.0`, which is not in `[0, 360)` as the claim states. -/
theorem C2_counterexample_phase_angle :
    (get_moon_phase ⟨false, fun _ => 0, fun _ _ _ _ => 0⟩
        (86400 * cycle_days * (35996 / 36000))).phase_angle = 360 := by
  have h0 : get_moon_phase ⟨false, fun _ => 0, fun _ _ _ _ => 0⟩
      (86400 * cycle_days * (35996 / 36000)) =
      fallback_moon_phase (86400 * cycle_days * (35996 / 36000)) := by
    simp [get_moon_phase]
  have h1 : fallbackElongation (86400 * cycle_days * (35996 / 36000)) = 359.96 := by
    norm_num [fallbackElongation, cycle_days]
  rw [h0]
  simp only [fallback_moon_phase, h1]
  unfold round1
  have h2 : ((359.96 : ℚ) : ℝ) * 10 = ((3599.6 : ℚ) : ℝ) := by push_cast; norm_num
  rw [h2, Rat.round_cast]
  norm_num [round_eq]

/-- C2 (amended): every `PhaseResult` returned by `get_moon_phase`, on
either path, has a phase name among the 8 labels, illumination in
`[0, 100]`, and phase angle in `[0, 360]` — the closed upper bound is
attained because both paths round the angle to one decimal, so 360.0 can be
returned (see the counterexample); on the primary path the backend
elongation for the instant is assumed to lie in `[0, 360)`. -/
theorem C2_phase_result_wellformed (env : Env) (date : ℚ)
    (h1 : 0 ≤ env.elongAt date) (h2 : env.elongAt date < 360) :
    wellFormedPhase (get_moon_phase env date) := by
  unfold get_moon_phase
  split
  · exact primary_wellFormed _ h1 h2
  · exact fallback_wellFormed date

/-- C2 witness: the well-formedness theorem applied at a concrete
available-backend environment whose elongation is 200°. -/
theorem C2_phase_result_wellformed_witness :
    wellFormedPhase (get_moon_phase ⟨true, fun _ => 200, fun _ _ _ _ => 0⟩ 0) :=
  C2_phase_result_wellformed ⟨true, fun _ => 200, fun _ _ _ _ => 0⟩ 0
    (by norm_num) (by norm_num)

/-! ## C7: rise/set absent when unavailable, phase still valid -/

/-- C7: with the ephemeris backend unavailable, `get_moon_rise_set` returns
both `moonrise` and `moonset` absent (no fallback geometry), while
`get_moon_phase` on the same backend state returns the fallback-formula
result, which is a valid (well-formed) `PhaseResult`. -/
theorem C7_rise_set_absent_when_unavailable
    (eA : ℚ → ℝ) (aA : ℝ → ℝ → ℚ → ℕ → ℝ) (lat lon : ℝ) (d : ℚ) :
    get_moon_rise_set ⟨false, eA, aA⟩ lat lon d = (none, none) ∧
    get_moon_phase ⟨false, eA, aA⟩ d = fallback_moon_phase d ∧
    wellFormedPhase (get_moon_phase ⟨false, eA, aA⟩ d) := by
  refine ⟨by simp [get_moon_rise_set], by simp [get_moon_phase], ?_⟩
  have h : get_moon_phase ⟨false, eA, aA⟩ d = fallback_moon_phase d := by
    simp [get_moon_phase]
  rw [h]
  exact fallback_wellFormed d

/-! ## C8: the lazy initializer is *not* all-or-nothing

In the source, the `try` block assigns `earth`, `moon`, `sun` after
`load('de421.bsp')` succeeds and before `load.timescale()` runs; an
`OSError` raised by `load.timescale()` is caught and `False` is returned,
but the three body globals keep their new values, so a failed attempt can
retain partial state.  The all-or-nothing claim is therefore refuted; what
holds is: a `True` return implies all four fields are set, a fully set
handle is never rewritten (write-once-then-read), and a failure of the
initial ephemeris load retains nothing. -/

/-- C8 counterexample: starting from the empty handle, one call whose
ephemeris load succeeds but whose timescale construction fails returns
`False` yet leaves `earth`, `moon`, `sun` set and `ts` unset — neither all
four fields nor none are set, refuting the all-or-nothing invariant. -/
theorem C8_counterexample_partial_state :
    (initialize_skyfield ⟨none, none, none, none⟩ (.timescaleFail 0 0 0)).2 = false ∧
    ¬ ((initialize_skyfield ⟨none, none, none, none⟩ (.timescaleFail 0 0 0)).1.allSet ∨
       (initialize_skyfield ⟨none, none, none, none⟩ (.timescaleFail 0 0 0)).1.noneSet) := by
  decide

/-- C8 (amended): after every call to `_initialize_skyfield`, if the call
returned `True` then all four fields are set; once all four fields are set
the handle is returned unchanged with `True` (written once, then only
read); and a failure of the ephemeris load itself retains no state.  A
failure between the body assignments and the timescale construction,
however, retains the three body fields (see the counterexample). -/
theorem C8_initializer_state (st : SkyState) (o : LoadOutcome) :
    ((initialize_skyfield st o).2 = true → (initialize_skyfield st o).1.allSet) ∧
    (st.allSet → initialize_skyfield st o = (st, true)) ∧
    (o = .loadFail → (initialize_skyfield st o).1 = st) := by
  unfold initialize_skyfield SkyState.allSet
  split_ifs with hg
  · exact ⟨fun _ => hg, fun _ => rfl, fun _ => rfl⟩
  · cases o <;> simp_all

/-- C8 witness: the amended theorem applied at a concrete fully-initialized
handle — a further call returns it unchanged with `True`. -/
theorem C8_initializer_state_witness :
    initialize_skyfield ⟨some 1, some 2, some 3, some 4⟩ .loadFail =
      (⟨some 1, some 2, some 3, some 4⟩, true) :=
  (C8_initializer_state ⟨some 1, some 2, some 3, some 4⟩ .loadFail).2.1 (by decide)

/-! ## C3: the fallback model -/

/-- C3: the fallback model's synthetic elongation is
`(elapsed days mod 29.53058867) / 29.53058867 × 360` with illumination
`(1 − cos e)/2 × 100` rounded to one decimal (these are `fallbackElongation`
and `fallback_illumination` by definition); the 8 phase-name bins are
centred on multiples of 45° with ±22.5° half-width (formalised as: the
name is the list entry indexed by the nearest multiple of 45°, mod 8);
`fallback_illumination` rounds to 0 at 0° and 100 at 180°; and at exactly
one synodic cycle past the epoch the elongation is 0° and the phase is
"New Moon" with illumination 0. -/
theorem C3_fallback_model :
    fallback_moon_phase (86400 * cycle_days) = ⟨"New Moon", 0, 0⟩ ∧
    round1 (fallback_illumination 0) = 0 ∧
    round1 (fallback_illumination 180) = 100 ∧
    (∀ e : ℚ, 0 ≤ e → e < 360 →
      phaseNameFallback e = phaseNames.getD (round (e / 45) % 8).toNat "") := by
  refine ⟨?_, ?_, ?_, ?_⟩
  · have h1 : fallbackElongation (86400 * cycle_days) = 0 := by
      norm_num [fallbackElongation, cycle_days]
    simp only [fallback_moon_phase, h1, Rat.cast_zero, PhaseResult.mk.injEq]
    refine ⟨by norm_num [phaseNameFallback], ?_, ?_⟩
    · unfold round1 fallback_illumination
      norm_num
    · unfold round1
      norm_num
  · unfold round1 fallback_illumination
    norm_num
  · unfold round1 fallback_illumination
    rw [show (180 : ℝ) * π / 180 = π by ring, Real.cos_pi]
    norm_num [round_eq]
  · intro e h0 h1
    unfold phaseNameFallback
    split_ifs with g1
    · rcases g1 with g1 | g1
      · have hrd : round (e / 45) = 0 := by
          rw [round_eq]
          exact Int.floor_eq_iff.mpr ⟨by push_cast; linarith, by push_cast; linarith⟩
        rw [hrd]; rfl
      · have hrd : round (e / 45) = 8 := by
          rw [round_eq]
          exact Int.floor_eq_iff.mpr ⟨by push_cast; linarith, by push_cast; linarith⟩
        rw [hrd]; rfl
    all_goals push_neg at g1
    · have hrd : round (e / 45) = 1 := by
        rw [round_eq]
        exact Int.floor_eq_iff.mpr ⟨by push_cast; linarith [g1.1], by push_cast; linarith⟩
      rw [hrd]; rfl
    · have hrd : round (e / 45) = 2 := by
        rw [round_eq]
        exact Int.floor_eq_iff.mpr ⟨by push_cast; linarith, by push_cast; linarith⟩
      rw [hrd]; rfl
    · have hrd : round (e / 45) = 3 := by
        rw [round_eq]
        exact Int.floor_eq_iff.mpr ⟨by push_cast; linarith, by push_cast; linarith⟩
      rw [hrd]; rfl
    · have hrd : round (e / 45) = 4 := by
        rw [round_eq]
        exact Int.floor_eq_iff.mpr ⟨by push_cast; linarith, by push_cast; linarith⟩
      rw [hrd]; rfl
    · have hrd : round (e / 45) = 5 := by
        rw [round_eq]
        exact Int.floor_eq_iff.mpr ⟨by push_cast; linarith, by push_cast; linarith⟩
      rw [hrd]; rfl
    · have hrd : round (e / 45) = 6 := by
        rw [round_eq]
        exact Int.floor_eq_iff.mpr ⟨by push_cast; linarith, by push_cast; linarith⟩
      rw [hrd]; rfl
    · have hrd : round (e / 45) = 7 := by
        rw [round_eq]
        exact Int.floor_eq_iff.mpr ⟨by push_cast; linarith [g1.2], by push_cast; linarith⟩
      rw [hrd]; rfl

/-- C3 witness: the bin-centre characterisation applied at the concrete
elongation 90°. -/
theorem C3_fallback_model_witness :
    phaseNameFallback 90 = phaseNames.getD (round ((90 : ℚ) / 45) % 8).toNat "" :=
  C3_fallback_model.2.2.2 90 (by norm_num) (by norm_num)

/-! ## C4: primary-model illumination symmetry

The claim's values at the endpoints are refuted: the primary formula is
`(1 + cos e)/2 × 100`, which equals 100 at elongation 0° and 0 at 180°
(the fallback model, with the opposite cosine sign, is the one vanishing
at 0°).  The symmetry `illumination(e) = illumination(360 − e)` does hold. -/

lemma round1_illumination_primary_zero : round1 (illumination_primary 0) = 100 := by
  unfold round1 illumination_primary
  norm_num [round_eq]

/-- C4 counterexample: at elongation 0° the primary model's returned
illumination is 100.0, not 0.0 as the claim states. -/
theorem C4_counterexample_illumination_at_zero :
    (get_moon_phase_primary 0).illumination = 100 ∧
    (get_moon_phase_primary 0).illumination ≠ 0 := by
  have h : (get_moon_phase_primary 0).illumination = round1 (illumination_primary 0) := rfl
  rw [h, round1_illumination_primary_zero]
  norm_num

/-- C4 (amended): the primary illumination `(1 + cos e)/2 × 100` satisfies
`illumination(e) = illumination(360 − e)` for every elongation, equals 100
at `e = 0` and 0 at `e = 180`; at elongation 0° the primary model yields
phase name "New Moon", illumination 100.0 and phase angle 0.0. -/
theorem C4_primary_illumination_symmetry (e : ℝ) :
    illumination_primary e = illumination_primary (360 - e) ∧
    illumination_primary 0 = 100 ∧
    illumination_primary 180 = 0 ∧
    get_moon_phase_primary 0 = ⟨"New Moon", 100, 0⟩ := by
  refine ⟨?_, ?_, ?_, ?_⟩
  · unfold illumination_primary
    rw [show (360 - e) * π / 180 = 2 * π - e * π / 180 by ring, Real.cos_two_pi_sub]
  · unfold illumination_primary
    norm_num
  · unfold illumination_primary
    rw [show (180 : ℝ) * π / 180 = π by ring, Real.cos_pi]
    norm_num
  · simp only [get_moon_phase_primary, PhaseResult.mk.injEq]
    refine ⟨by norm_num [phaseNamePrimary], round1_illumination_primary_zero, ?_⟩
    unfold round1
    norm_num

/-! ## C5: elongation 200° on the primary path

The "Full Moon" bin is confirmed, but the claimed illumination 6.0 is
refuted: `round((1 + cos 200°)/2 × 100, 1) = 3.0`, since
`cos 200° = −cos 20° ≈ −0.93969`.  The bound `cos(π/9) ∈ (0.9396, 0.9398)`
is derived from the triple-angle identity `4c³ − 3c = cos(π/3) = 1/2`. -/

lemma cos_pi_div_nine_bounds :
    (0.9396 : ℝ) < Real.cos (π / 9) ∧ Real.cos (π / 9) < 0.9398 := by
  set c := Real.cos (π / 9) with hc
  have h3 : Real.cos (3 * (π / 9)) = 4 * c ^ 3 - 3 * c := Real.cos_three_mul _
  rw [show 3 * (π / 9) = π / 3 by ring, Real.cos_pi_div_three] at h3
  have hlow : Real.cos (π / 4) < c := by
    apply Real.cos_lt_cos_of_nonneg_of_le_pi (by positivity)
    · linarith [Real.pi_pos]
    · linarith [Real.pi_pos]
  rw [Real.cos_pi_div_four] at hlow
  have hsqrt : (1.41 : ℝ) < Real.sqrt 2 := by
    rw [show (1.41 : ℝ) = Real.sqrt (1.41 ^ 2) by rw [Real.sqrt_sq]; norm_num]
    exact Real.sqrt_lt_sqrt (by norm_num) (by norm_num)
  have hc7 : (0.7 : ℝ) < c := by linarith
  constructor
  · nlinarith [sq_nonneg (c - 0.9397), sq_nonneg (c + 1.9)]
  · nlinarith [sq_nonneg (c - 0.9397), sq_nonneg (c + 1.9)]

lemma round1_illumination_primary_200 : round1 (illumination_primary 200) = 3 := by
  unfold round1 illumination_primary
  rw [show (200 : ℝ) * π / 180 = π + π / 9 by ring]
  have hco : Real.cos (π + π / 9) = -Real.cos (π / 9) := by
    rw [Real.cos_add]
    simp
  rw [hco]
  obtain ⟨hl, hu⟩ := cos_pi_div_nine_bounds
  have hr : round ((1 + -Real.cos (π / 9)) / 2 * 100 * 10) = 30 := by
    rw [round_eq]
    exact Int.floor_eq_iff.mpr ⟨by push_cast; nlinarith, by push_cast; nlinarith⟩
  rw [hr]
  norm_num

/-- C5 counterexample: at elongation 200° the primary model's returned
illumination is not 6.0 (it is 3.0). -/
theorem C5_counterexample_illumination_200 :
    (get_moon_phase_primary 200).illumination ≠ 6 := by
  have h : (get_moon_phase_primary 200).illumination = round1 (illumination_primary 200) := rfl
  rw [h, round1_illumination_primary_200]
  norm_num

/-- C5 (amended): on the primary path, an elongation of 200° yields phase
name "Full Moon" (bin `[180, 225)`) and illumination
`round((1 + cos 200°)/2 × 100, 1) = 3.0`. -/
theorem C5_full_moon_bin_at_200 :
    (get_moon_phase_primary 200).phase_name = "Full Moon" ∧
    (get_moon_phase_primary 200).illumination = 3 := by
  constructor
  · show phaseNamePrimary 200 = _
    unfold phaseNamePrimary
    norm_num
  · exact round1_illumination_primary_200

/-! ## C10: the next-full-moon success test is unsatisfiable on the primary path -/

lemma full_moon_low_illum (e : ℝ) :
    ¬ (round1 (illumination_primary e) > 99 ∧ phaseNamePrimary e = "Full Moon") := by
  rintro ⟨hi, hn⟩
  have hb : 180 ≤ e ∧ e < 225 := by
    unfold phaseNamePrimary at hn
    split_ifs at hn <;> simp_all
  have hcos : Real.cos (e * π / 180) ≤ 0 := by
    apply Real.cos_nonpos_of_pi_div_two_le_of_le
    · nlinarith [Real.pi_pos, hb.1]
    · nlinarith [Real.pi_pos, hb.2]
  have hle : illumination_primary e ≤ 50 := by
    unfold illumination_primary
    nlinarith
  have h50 := round1_le_of_le _ 50 (by exact_mod_cast hle)
  push_cast at h50
  linarith

/-- C10: on the primary path, no elongation in `[0, 360)` has both rounded
illumination above 99 and phase name "Full Moon" (illumination exceeds 99
only near 0°, inside the "New Moon" bin, while the "Full Moon" bin
`[180, 225)` has non-positive cosine and hence illumination at most 50);
consequently `get_next_full_moon` returns `None` whenever the ephemeris is
available for all 30 scanned days, whatever elongations the backend
reports. -/
theorem C10_next_full_moon_none :
    (∀ e : ℝ, 0 ≤ e → e < 360 →
      ¬ (round1 (illumination_primary e) > 99 ∧ phaseNamePrimary e = "Full Moon")) ∧
    (∀ (eA : ℚ → ℝ) (aA : ℝ → ℝ → ℚ → ℕ → ℝ) (now : ℚ),
      get_next_full_moon ⟨true, eA, aA⟩ now = none) := by
  constructor
  · intro e _ _
    exact full_moon_low_illum e
  · intro eA aA now
    unfold get_next_full_moon
    rw [List.findSome?_eq_none_iff]
    intro k _
    simp only [get_moon_phase, if_true]
    rw [if_neg]
    exact full_moon_low_illum _

/-- C10 witness: the unsatisfiability applied at the concrete elongation
200°, the middle of the "Full Moon" bin. -/
theorem C10_next_full_moon_none_witness :
    ¬ (round1 (illumination_primary 200) > 99 ∧ phaseNamePrimary 200 = "Full Moon") :=
  C10_next_full_moon_none.1 200 (by norm_num) (by norm_num)

/-! ## C6: the hourly crossing scan

The two assignments inside the scan loop are last-write-wins updates of the
`moonrise` and `moonset` slots.  `hitUpd cond` is the update a single slot
undergoes at index `i`: record `i + 1` when `cond i` holds, keep the
accumulator otherwise.  The scan is characterised as: the slot ends up
`some r` exactly when some crossing index `i` has `r = i + 1` and no later
index in the scan is a crossing of the same type. -/

/-- One last-write-wins slot update of the crossing scan. -/
noncomputable def hitUpd (cond : ℕ → Prop) : Option ℕ → ℕ → Option ℕ :=
  fun acc i => @ite _ (cond i) (Classical.propDecidable _) (some (i + 1)) acc

lemma hitUpd_pos (cond : ℕ → Prop) (a : Option ℕ) (i : ℕ) (h : cond i) :
    hitUpd cond a i = some (i + 1) := by
  simp [hitUpd, h]

lemma hitUpd_neg (cond : ℕ → Prop) (a : Option ℕ) (i : ℕ) (h : ¬ cond i) :
    hitUpd cond a i = a := by
  simp [hitUpd, h]

lemma scanStep_fst (alt : ℕ → ℝ) (st : Option ℕ × Option ℕ) (i : ℕ) :
    (scanStep alt st i).1 = hitUpd (fun j => alt j < 0 ∧ 0 ≤ alt (j + 1)) st.1 i := by
  by_cases h1 : alt i < 0 ∧ 0 ≤ alt (i + 1) <;>
    by_cases h2 : 0 ≤ alt i ∧ alt (i + 1) < 0 <;>
      simp [scanStep, hitUpd, h1, h2]

lemma scanStep_snd (alt : ℕ → ℝ) (st : Option ℕ × Option ℕ) (i : ℕ) :
    (scanStep alt st i).2 = hitUpd (fun j => 0 ≤ alt j ∧ alt (j + 1) < 0) st.2 i := by
  by_cases h1 : alt i < 0 ∧ 0 ≤ alt (i + 1) <;>
    by_cases h2 : 0 ≤ alt i ∧ alt (i + 1) < 0 <;>
      simp [scanStep, hitUpd, h1, h2]

lemma foldl_scan (alt : ℕ → ℝ) (l : List ℕ) (st : Option ℕ × Option ℕ) :
    l.foldl (scanStep alt) st =
      (l.foldl (hitUpd fun j => alt j < 0 ∧ 0 ≤ alt (j + 1)) st.1,
       l.foldl (hitUpd fun j => 0 ≤ alt j ∧ alt (j + 1) < 0) st.2) := by
  induction l generalizing st with
  | nil => rfl
  | cons x xs ih =>
      simp only [List.foldl_cons]
      rw [ih, scanStep_fst, scanStep_snd]

lemma hitUpd_foldl_some_iff (cond : ℕ → Prop) :
    ∀ (n : ℕ) (a : Option ℕ) (r : ℕ),
      (List.range n).foldl (hitUpd cond) a = some r ↔
        (∃ i, i < n ∧ cond i ∧ r = i + 1 ∧ ∀ j, i < j → j < n → ¬ cond j) ∨
        (a = some r ∧ ∀ i, i < n → ¬ cond i) := by
  intro n
  induction n with
  | zero =>
      intro a r
      simp
  | succ n ih =>
      intro a r
      rw [List.range_succ, List.foldl_append, List.foldl_cons, List.foldl_nil]
      by_cases hp : cond n
      · rw [hitUpd_pos _ _ _ hp]
        constructor
        · intro h
          injection h with h
          exact Or.inl ⟨n, Nat.lt_succ_self n, hp, h.symm,
            fun j hj1 hj2 => ((by omega : False).elim)⟩
        · rintro (⟨i, hi, hci, hr, hlast⟩ | ⟨_, hall⟩)
          · rcases (by omega : i < n ∨ i = n) with hlt | heq
            · exact absurd hp (hlast n hlt (Nat.lt_succ_self n))
            · subst heq
              rw [hr]
          · exact absurd hp (hall n (Nat.lt_succ_self n))
      · rw [hitUpd_neg _ _ _ hp, ih]
        constructor
        · rintro (⟨i, hi, hci, hr, hlast⟩ | ⟨ha, hall⟩)
          · refine Or.inl ⟨i, by omega, hci, hr, fun j hj1 hj2 => ?_⟩
            rcases (by omega : j < n ∨ j = n) with hlt | heq
            · exact hlast j hj1 hlt
            · subst heq
              exact hp
          · refine Or.inr ⟨ha, fun i hi => ?_⟩
            rcases (by omega : i < n ∨ i = n) with hlt | heq
            · exact hall i hlt
            · subst heq
              exact hp
        · rintro (⟨i, hi, hci, hr, hlast⟩ | ⟨ha, hall⟩)
          · have hin : i < n := by
              rcases (by omega : i < n ∨ i = n) with hlt | heq
              · exact hlt
              · subst heq
                exact absurd hci hp
            exact Or.inl ⟨i, hin, hci, hr, fun j hj1 hj2 => hlast j hj1 (by omega)⟩
          · exact Or.inr ⟨ha, fun i hi => hall i (by omega)⟩

lemma hitUpd_foldl_none_iff (cond : ℕ → Prop) :
    ∀ (n : ℕ) (a : Option ℕ),
      (List.range n).foldl (hitUpd cond) a = none ↔
        a = none ∧ ∀ i, i < n → ¬ cond i := by
  intro n
  induction n with
  | zero =>
      intro a
      simp
  | succ n ih =>
      intro a
      rw [List.range_succ, List.foldl_append, List.foldl_cons, List.foldl_nil]
      by_cases hp : cond n
      · rw [hitUpd_pos _ _ _ hp]
        constructor
        · intro h
          cases h
        · rintro ⟨_, hall⟩
          exact absurd hp (hall n (Nat.lt_succ_self n))
      · rw [hitUpd_neg _ _ _ hp, ih]
        constructor
        · rintro ⟨ha, hall⟩
          refine ⟨ha, fun i hi => ?_⟩
          rcases (by omega : i < n ∨ i = n) with hlt | heq
          · exact hall i hlt
          · subst heq
            exact hp
        · rintro ⟨ha, hall⟩
          exact ⟨ha, fun i hi => hall i (by omega)⟩

/-- C6: the hourly scan over adjacent sample pairs records a moonrise at the
later sample's hour when altitude goes from `< 0` to `≥ 0`, and a moonset
at the later sample's hour when it goes from `≥ 0` to `< 0`, the later
crossing of each type overwriting an earlier one: the slot holds `some r`
exactly when some pair `(i, i + 1)` with `i < 23` crosses, `r = i + 1`, and
no later pair crosses in the same direction.  In particular, for 24 samples
strictly negative for hours 0–11 and non-negative for hours 12–23, the
result is moonrise at hour 12's instant and moonset absent. -/
theorem C6_rise_set_scan (alt : ℕ → ℝ) :
    (∀ r, (riseSetScan alt).1 = some r ↔
      ∃ i, i < 23 ∧ (alt i < 0 ∧ 0 ≤ alt (i + 1)) ∧ r = i + 1 ∧
        ∀ j, i < j → j < 23 → ¬ (alt j < 0 ∧ 0 ≤ alt (j + 1))) ∧
    (∀ r, (riseSetScan alt).2 = some r ↔
      ∃ i, i < 23 ∧ (0 ≤ alt i ∧ alt (i + 1) < 0) ∧ r = i + 1 ∧
        ∀ j, i < j → j < 23 → ¬ (0 ≤ alt j ∧ alt (j + 1) < 0)) ∧
    ((∀ i, i < 12 → alt i < 0) → (∀ i, 12 ≤ i → i < 24 → 0 ≤ alt i) →
      riseSetScan alt = (some 12, none)) := by
  have hscan : riseSetScan alt =
      ((List.range 23).foldl (hitUpd fun j => alt j < 0 ∧ 0 ≤ alt (j + 1)) none,
       (List.range 23).foldl (hitUpd fun j => 0 ≤ alt j ∧ alt (j + 1) < 0) none) := by
    unfold riseSetScan
    exact foldl_scan alt _ (none, none)
  have hfst : (riseSetScan alt).1 =
      (List.range 23).foldl (hitUpd fun j => alt j < 0 ∧ 0 ≤ alt (j + 1)) none := by
    rw [hscan]
  have hsnd : (riseSetScan alt).2 =
      (List.range 23).foldl (hitUpd fun j => 0 ≤ alt j ∧ alt (j + 1) < 0) none := by
    rw [hscan]
  refine ⟨?_, ?_, ?_⟩
  · intro r
    rw [hfst, hitUpd_foldl_some_iff]
    constructor
    · rintro (h | ⟨h, _⟩)
      · exact h
      · cases h
    · exact Or.inl
  · intro r
    rw [hsnd, hitUpd_foldl_some_iff]
    constructor
    · rintro (h | ⟨h, _⟩)
      · exact h
      · cases h
    · exact Or.inl
  · intro hneg hpos
    rw [hscan]
    have h1 : (List.range 23).foldl (hitUpd fun j => alt j < 0 ∧ 0 ≤ alt (j + 1)) none =
        some 12 :=
      (hitUpd_foldl_some_iff _ 23 none 12).mpr
        (Or.inl ⟨11, by omega, ⟨hneg 11 (by omega), hpos 12 (by omega) (by omega)⟩, rfl,
          fun j hj1 hj2 hc => absurd hc.1 (not_lt.mpr (hpos j (by omega) (by omega)))⟩)
    have h2 : (List.range 23).foldl (hitUpd fun j => 0 ≤ alt j ∧ alt (j + 1) < 0) none =
        none :=
      (hitUpd_foldl_none_iff _ 23 none).mpr
        ⟨rfl, fun i hi hc => by
          rcases (by omega : i < 12 ∨ 12 ≤ i) with hlt | hge
          · exact absurd hc.1 (not_le.mpr (hneg i hlt))
          · exact absurd hc.2 (not_lt.mpr (hpos (i + 1) (by omega) (by omega)))⟩
    rw [h1, h2]

/-- C6 witness: the single-crossing scenario of the theorem applied to the
concrete altitude profile `−1` for hours 0–11 and `1` for hours 12–23. -/
theorem C6_rise_set_scan_witness :
    riseSetScan (fun i => if i < 12 then (-1 : ℝ) else 1) = (some 12, none) :=
  (C6_rise_set_scan (fun i => if i < 12 then (-1 : ℝ) else 1)).2.2
    (fun i hi => by rw [if_pos hi]; norm_num)
    (fun i h1 _ => by rw [if_neg (by omega)]; norm_num)

end Astronomy
